import Mathlib

/-!
Verification of the audio2sub pipeline core: a shallow embedding of the
segment data model, the chunking / retry / response-parsing protocol shared
by the AI backends, and the transcription pipeline orchestrator, together
with proofs of the behavioural properties stated in the specification.

Sources embedded:
  - audio2sub/common.py        (Segment data model)
  - audio2sub/ai.py            (AIBackendBase: _iter_chunks, _retry)
  - audio2sub/transcribe.py    (transcribe orchestrator)
  - audio2sub/translators/base.py (AITranslator: translate, _parse_response_text)
  - audio2sub/aligners/base.py (AIAligner: align, _iter_alignment_chunks,
                                _parse_response_text)
  - audio2sub/transcribers/base.py (AIAPITranscriber: _iter_chunks,
                                _parse_response_text)

Modelling conventions: Python floats carrying times are modelled as ℚ (they
are only stored and compared, never computed with); a provider's raw JSON
response is modelled after `json.loads` as a list of `RespItem`s, where
entries that are not objects or lack an "index" key are `invalid` (the code
filters them out); mutation of segments in place is modelled by returning
the updated list.
-/

namespace Audio2Sub

/-- The Segment dataclass of audio2sub/common.py: a subtitle-worthy unit with
a 1-based index, start/end times in seconds, mutable text and an optional
audio-clip path. -/
structure Segment where
  index : Int
  start : ℚ
  «end» : ℚ
  text : String := ""
  audio : Option String := none
deriving Repr, DecidableEq

/-- One JSON object of a provider response that contains an "index" key.
`start`/`end`/`text` are `none` when the corresponding key is absent. -/
structure RespEntry where
  index : Int
  start : Option ℚ := none
  «end» : Option ℚ := none
  text : Option String := none
deriving Repr, DecidableEq

/-- One element of the JSON array `json.loads` returns: either an object
carrying an "index" key, or anything else (skipped by the dict build). -/
inductive RespItem where
  | entry (e : RespEntry)
  | invalid
deriving Repr, DecidableEq

/-- The entries kept by the comprehension
`{entry.get("index"): entry for entry in parsed if isinstance(entry, dict) and "index" in entry}`. -/
def validEntries (parsed : List RespItem) : List RespEntry :=
  parsed.filterMap fun
    | .entry e => some e
    | .invalid => none

/-- Model of `by_index.get(i)`: the dict comprehension lets a later duplicate index
overwrite an earlier one, so the lookup returns the last matching entry. -/
def by_index_get (parsed : List RespItem) (i : Int) : Option RespEntry :=
  (validEntries parsed).reverse.find? (fun e => e.index == i)

/-- Python's str.strip(): drop leading and trailing whitespace.  Written
over the character list so that it is kernel-computable. -/
def pyStrip (s : String) : String :=
  String.mk (((s.data.dropWhile Char.isWhitespace).reverse.dropWhile
    Char.isWhitespace).reverse)

/-- Whether an attempt outcome is an exception (used to state retry facts). -/
def isError {E : Type _} {T : Type _} : Except E T → Bool
  | .error _ => true
  | .ok _ => false

namespace AIBackendBase

/-- The chunk slices produced by `for i in range(0, len(items), size)` with a
positive step `size`: successive `take`/`drop` slices.  The `size = 0` guard
is never hit through `_iter_chunks` (it maps that case to an error). -/
def chunkList (size : Nat) : List α → List (List α)
  | [] => []
  | x :: xs =>
    if size = 0 then []
    else
      (x :: xs).take size :: chunkList size ((x :: xs).drop size)
termination_by l => l.length
decreasing_by
  simp only [List.length_drop, List.length_cons]
  omega

/-- Model of `AIBackendBase._iter_chunks` (audio2sub/ai.py):
`if size <= 0: size = len(items)` then `for i in range(0, len(items), size)`.
When the effective step is zero (empty input with non-positive size) Python's
`range` raises `ValueError` on iteration, modelled as `none`. -/
def _iter_chunks (items : List α) (size : Int) : Option (List (List α)) :=
  let s : Int := if size ≤ 0 then (items.length : Int) else size
  if s ≤ 0 then none
  else some (chunkList s.toNat items)

/-- Model of `AIBackendBase._retry` (audio2sub/ai.py), from a given attempt number:
call `fn`; on success return immediately, on an exception retry while
`attempt < max_retries`, else re-raise the last exception.  The attempt
outcomes are modelled by `f : Nat → Except E T`; the result records the
number of invocations made together with the final outcome. -/
def retryFrom (f : Nat → Except E T) (max_retries : Nat) (attempt : Nat) :
    Nat × Except E T :=
  match f attempt with
  | .ok v => (attempt + 1, .ok v)
  | .error e =>
    if attempt < max_retries then retryFrom f max_retries (attempt + 1)
    else (attempt + 1, .error e)
termination_by max_retries - attempt

/-- Model of `AIBackendBase._retry`: the loop `for attempt in range(max_retries + 1)`
starting at attempt 0. -/
def _retry (f : Nat → Except E T) (max_retries : Nat) : Nat × Except E T :=
  retryFrom f max_retries 0

end AIBackendBase

namespace AIAPITranscriber

/-- Model of `AIAPITranscriber._iter_chunks` (audio2sub/transcribers/base.py) —
textually the same code as `AIBackendBase._iter_chunks`. -/
def _iter_chunks (items : List α) (size : Int) : Option (List (List α)) :=
  let s : Int := if size ≤ 0 then (items.length : Int) else size
  if s ≤ 0 then none
  else some (AIBackendBase.chunkList s.toNat items)

/-- Body of the loop of `AIAPITranscriber._parse_response_text`:
`seg.text = entry.get("text", "").strip()` when a matching entry exists. -/
def applyEntry (e : RespEntry) (seg : Segment) : Segment :=
  { seg with text := pyStrip (e.text.getD "") }

/-- Model of `AIAPITranscriber._parse_response_text` (audio2sub/transcribers/base.py):
build the by-index lookup, then for each segment of the batch overwrite its
text from the matching entry, leaving unmatched segments untouched. -/
def _parse_response_text (parsed : List RespItem) (batch : List Segment) :
    List Segment :=
  batch.map fun seg =>
    match by_index_get parsed seg.index with
    | some e => applyEntry e seg
    | none => seg

end AIAPITranscriber

/-- Model of `chunk_size = chunk if chunk and chunk > 0 else self.default_chunk`
(Python truthiness: `None` and `0` both fall back to the default). -/
def effective_chunk_size (chunk : Option Int) (default_chunk : Int) : Int :=
  match chunk with
  | some c => if c > 0 then c else default_chunk
  | none => default_chunk

namespace AITranslator

/-- Body of the loop of `AITranslator._parse_response_text`:
`seg.text = entry.get("text", "").strip()` when a matching entry exists. -/
def applyEntry (e : RespEntry) (seg : Segment) : Segment :=
  { seg with text := pyStrip (e.text.getD "") }

/-- Model of `AITranslator._parse_response_text` (audio2sub/translators/base.py). -/
def _parse_response_text (parsed : List RespItem) (batch : List Segment) :
    List Segment :=
  batch.map fun seg =>
    match by_index_get parsed seg.index with
    | some e => applyEntry e seg
    | none => seg

/-- The chunk loop of `AITranslator.translate`: for each batch, request the
provider (the r-th request's parsed response is `responses r`), parse the
response into the batch, and extend the result with the batch. -/
def translateBatches (responses : Nat → List RespItem) :
    List (List Segment) → Nat → List Segment
  | [], _ => []
  | b :: rest, r =>
    _parse_response_text (responses r) b ++ translateBatches responses rest (r + 1)

/-- Model of `AITranslator.translate` (audio2sub/translators/base.py): compute the
effective chunk size (default_chunk = 2000), partition the segments with
`_iter_chunks`, and run the per-batch request/parse/extend loop.  The `none`
branch of `_iter_chunks` is unreachable because the effective chunk size is
always positive. -/
def translate (segments : List Segment) (chunk : Option Int)
    (responses : Nat → List RespItem) : List Segment :=
  match AIBackendBase._iter_chunks segments (effective_chunk_size chunk 2000) with
  | none => []
  | some batches => translateBatches responses batches 0

end AITranslator

namespace AIAligner

/-- Body of the loop of `AIAligner._parse_response_text`:
`seg.start = float(entry.get("start", seg.start))`,
`seg.end = float(entry.get("end", seg.end))`, and
`if "text" in entry: seg.text = entry["text"]`.  `float` on a number already
stored as ℚ is the identity. -/
def applyEntry (e : RespEntry) (seg : Segment) : Segment :=
  { seg with
    start := e.start.getD seg.start
    «end» := e.«end».getD seg.«end»
    text := e.text.getD seg.text }

/-- Model of `AIAligner._parse_response_text` (audio2sub/aligners/base.py). -/
def _parse_response_text (parsed : List RespItem) (batch : List Segment) :
    List Segment :=
  batch.map fun seg =>
    match by_index_get parsed seg.index with
    | some e => applyEntry e seg
    | none => seg

/-- Model of `AIAligner._iter_alignment_chunks` (audio2sub/aligners/base.py): a single
`(segments, reference)` pair when `chunk_size <= 0 or chunk_size >=
len(segments)`, otherwise each chunk of `segments` paired with the whole
reference list. -/
def _iter_alignment_chunks (segments reference : List Segment)
    (chunk_size : Int) : List (List Segment × List Segment) :=
  if chunk_size ≤ 0 ∨ chunk_size ≥ (segments.length : Int) then
    [(segments, reference)]
  else
    (AIBackendBase.chunkList chunk_size.toNat segments).map fun b => (b, reference)

/-- The chunk loop of `AIAligner.align`: for each `(seg_batch, ref_batch)`
pair, request the provider (the reference only shapes the request payload),
parse the response into the segment batch, and extend the result. -/
def alignBatches (responses : Nat → List RespItem) :
    List (List Segment × List Segment) → Nat → List Segment
  | [], _ => []
  | (b, _) :: rest, r =>
    _parse_response_text (responses r) b ++ alignBatches responses rest (r + 1)

/-- Model of `AIAligner.align` (audio2sub/aligners/base.py): compute the effective
chunk size (default_chunk = 2000) and run the per-pair loop over
`_iter_alignment_chunks`. -/
def align (segments reference : List Segment) (chunk : Option Int)
    (responses : Nat → List RespItem) : List Segment :=
  alignBatches responses
    (_iter_alignment_chunks segments reference
      (effective_chunk_size chunk 2000)) 0

end AIAligner

/-- The errors the transcribe orchestrator raises after the input-existence
check (file-system collaborators are outside the model). -/
inductive PipelineError where
  | noSpeechDetected
  | noSubtitleLines
deriving Repr, DecidableEq

/-- Model of `for idx, seg in enumerate(segments, start=1): seg.index = idx; ...
seg.audio = seg_path` — attach 1-based indices and per-segment clip paths. -/
def indexFrom (i : Int) : List Segment → List Segment
  | [] => []
  | s :: rest =>
    { s with index := i, audio := some ("segment_" ++ toString i ++ ".wav") }
      :: indexFrom (i + 1) rest

/-- Model of `transcribe` (audio2sub/transcribe.py), from the detector's output
onwards; `tr` models the transcriber backend (`Base.batch_transcribe` sets
each segment's text from its audio clip, in order).  Returns the pipeline
outcome paired with the number of segments the transcriber was invoked on.
If the detector output is empty, the pipeline fails with the no-speech error
before any transcription; otherwise segments are re-indexed from 1, all are
transcribed, the ones with blank (whitespace-only) text are dropped, and an
all-blank result fails with the no-subtitle-lines error. -/
def transcribeModel (detected : List Segment) (tr : Segment → String) :
    Except PipelineError (List Segment) × Nat :=
  match detected with
  | [] => (.error .noSpeechDetected, 0)
  | d :: ds =>
    let segments := indexFrom 1 (d :: ds)
    let transcribed := segments.map fun seg => { seg with text := tr seg }
    let filtered := transcribed.filter fun seg => pyStrip seg.text != ""
    if filtered.isEmpty then (.error .noSubtitleLines, segments.length)
    else (.ok filtered, segments.length)

end Audio2Sub

namespace Audio2Sub

theorem chunkList_flatten {α : Type _} (size : Nat) (hs : size ≠ 0) :
    ∀ l : List α, (AIBackendBase.chunkList size l).flatten = l
  | [] => by simp [AIBackendBase.chunkList]
  | x :: xs => by
    rw [AIBackendBase.chunkList, if_neg hs, List.flatten_cons,
      chunkList_flatten size hs ((x :: xs).drop size), List.take_append_drop]
termination_by l => l.length
decreasing_by simp only [List.length_drop, List.length_cons]; omega

theorem chunkList_eq_nil_iff {α : Type _} (size : Nat) (hs : size ≠ 0)
    (l : List α) : AIBackendBase.chunkList size l = [] ↔ l = [] := by
  cases l with
  | nil => simp [AIBackendBase.chunkList]
  | cons x xs => rw [AIBackendBase.chunkList, if_neg hs]; simp

theorem chunkList_dropLast_length {α : Type _} (size : Nat) (hs : size ≠ 0) :
    ∀ l : List α, ∀ b ∈ (AIBackendBase.chunkList size l).dropLast,
      b.length = size
  | [] => by simp [AIBackendBase.chunkList]
  | x :: xs => by
    rw [AIBackendBase.chunkList, if_neg hs]
    intro b hb
    by_cases hrest : AIBackendBase.chunkList size ((x :: xs).drop size) = []
    · rw [hrest] at hb
      simp at hb
    · rw [List.dropLast_cons_of_ne_nil hrest] at hb
      rcases List.mem_cons.mp hb with hb | hb
      · subst hb
        have hdrop : (x :: xs).drop size ≠ [] := fun hnil =>
          hrest (by rw [hnil]; simp [AIBackendBase.chunkList])
        have hlt : size < (x :: xs).length := by
          by_contra hle
          exact hdrop (List.drop_eq_nil_of_le (by omega))
        rw [List.length_take]
        omega
      · exact chunkList_dropLast_length size hs ((x :: xs).drop size) b hb
termination_by l => l.length
decreasing_by simp only [List.length_drop, List.length_cons]; omega

theorem chunkList_of_ge {α : Type _} (size : Nat) (hs : size ≠ 0)
    (l : List α) (hne : l ≠ []) (hge : l.length ≤ size) :
    AIBackendBase.chunkList size l = [l] := by
  cases l with
  | nil => exact absurd rfl hne
  | cons x xs =>
    rw [AIBackendBase.chunkList, if_neg hs, List.take_of_length_le hge,
      List.drop_eq_nil_of_le hge]
    simp [AIBackendBase.chunkList]

theorem iter_chunks_pos {α : Type _} (items : List α) (c : Int) (hc : 0 < c) :
    AIBackendBase._iter_chunks items c =
      some (AIBackendBase.chunkList c.toNat items) := by
  unfold AIBackendBase._iter_chunks
  rw [if_neg (by omega), if_neg (by omega)]

theorem iter_chunks_nonpos_ne_nil {α : Type _} (items : List α) (c : Int)
    (hc : c ≤ 0) (hne : items ≠ []) :
    AIBackendBase._iter_chunks items c =
      some (AIBackendBase.chunkList items.length items) := by
  have hlen : 0 < items.length := List.length_pos.mpr hne
  unfold AIBackendBase._iter_chunks
  rw [if_pos hc, if_neg (by omega)]
  norm_num

end Audio2Sub

namespace Audio2Sub

theorem iter_chunks_transcriber_eq {α : Type _} (items : List α) (c : Int) :
    AIAPITranscriber._iter_chunks items c = AIBackendBase._iter_chunks items c :=
  rfl

/-- Claim C3: for every chunk size c ≥ 1 and every input list, `_iter_chunks`
succeeds, concatenating its chunks in order yields exactly the original list,
and every chunk except possibly the last has exactly c elements. -/
theorem iter_chunks_roundtrip_C3 {α : Type _} (items : List α) (c : Int)
    (hc : 1 ≤ c) :
    ∃ chunks, AIBackendBase._iter_chunks items c = some chunks ∧
      chunks.flatten = items ∧
      ∀ b ∈ chunks.dropLast, (b.length : Int) = c := by
  refine ⟨AIBackendBase.chunkList c.toNat items,
    iter_chunks_pos items c (by omega), ?_, ?_⟩
  · exact chunkList_flatten c.toNat (by omega) items
  · intro b hb
    have hlen := chunkList_dropLast_length c.toNat (by omega) items b hb
    omega

/-- Witness for C3 at chunk size 2 over a five-element list. -/
theorem iter_chunks_roundtrip_C3_witness :
    ∃ chunks, AIBackendBase._iter_chunks [1, 2, 3, 4, 5] (2 : Int) = some chunks ∧
      chunks.flatten = [1, 2, 3, 4, 5] ∧
      ∀ b ∈ chunks.dropLast, (b.length : Int) = 2 :=
  iter_chunks_roundtrip_C3 [1, 2, 3, 4, 5] 2 (by decide)

/-- Counterexample to claim C8 as stated: on the empty input list with chunk
size 1 (which is ≥ L = 0) the operation yields zero chunks, not one chunk
containing all items. -/
theorem iter_chunks_empty_C8_counterexample :
    AIBackendBase._iter_chunks ([] : List Nat) 1 = some [] ∧
    some ([] : List (List Nat)) ≠ some [([] : List Nat)] := by
  refine ⟨?_, by decide⟩
  simp [AIBackendBase._iter_chunks, AIBackendBase.chunkList]

/-- Claim C8 (amended to non-empty inputs): for every non-empty input list of
length L, a chunk size ≤ 0 or ≥ L makes `_iter_chunks` produce exactly one
chunk containing all L items. -/
theorem iter_chunks_single_chunk_C8_amended {α : Type _} (items : List α)
    (c : Int) (hne : items ≠ []) (hc : c ≤ 0 ∨ (items.length : Int) ≤ c) :
    AIBackendBase._iter_chunks items c = some [items] := by
  have hlen : 0 < items.length := List.length_pos.mpr hne
  rcases hc with hc | hc
  · rw [iter_chunks_nonpos_ne_nil items c hc hne,
      chunkList_of_ge items.length (by omega) items hne (le_refl _)]
  · have hc1 : 0 < c := by omega
    rw [iter_chunks_pos items c hc1,
      chunkList_of_ge c.toNat (by omega) items hne (by omega)]

/-- Witness for the amended C8: a two-element list with chunk size -1. -/
theorem iter_chunks_single_chunk_C8_witness :
    AIBackendBase._iter_chunks [7, 8] (-1 : Int) = some [[7, 8]] :=
  iter_chunks_single_chunk_C8_amended [7, 8] (-1) (by decide) (Or.inl (by decide))

/-- Claim C10: on the empty input list with a non-positive chunk size both
`_iter_chunks` implementations hit a zero range step and raise (modelled as
`none`) rather than yielding zero chunks or one empty chunk; on every
non-empty list they are total. -/
theorem iter_chunks_zero_step_C10 {α : Type _} (c : Int) (items : List α) :
    (c ≤ 0 → AIBackendBase._iter_chunks ([] : List α) c = none ∧
      AIAPITranscriber._iter_chunks ([] : List α) c = none) ∧
    (items ≠ [] → (AIBackendBase._iter_chunks items c).isSome = true ∧
      (AIAPITranscriber._iter_chunks items c).isSome = true) := by
  constructor
  · intro hc
    have h : AIBackendBase._iter_chunks ([] : List α) c = none := by
      unfold AIBackendBase._iter_chunks
      rw [if_pos hc]
      norm_num
    exact ⟨h, by rw [iter_chunks_transcriber_eq]; exact h⟩
  · intro hne
    have h : (AIBackendBase._iter_chunks items c).isSome = true := by
      rcases le_or_lt c 0 with hc | hc
      · rw [iter_chunks_nonpos_ne_nil items c hc hne]; rfl
      · rw [iter_chunks_pos items c hc]; rfl
    exact ⟨h, by rw [iter_chunks_transcriber_eq]; exact h⟩

/-- Witness for C10: the error case at c = 0 on [], totality at c = 0 on [5]. -/
theorem iter_chunks_zero_step_C10_witness :
    (AIBackendBase._iter_chunks ([] : List Nat) 0 = none ∧
      AIAPITranscriber._iter_chunks ([] : List Nat) 0 = none) ∧
    ((AIBackendBase._iter_chunks [5] (0 : Int)).isSome = true ∧
      (AIAPITranscriber._iter_chunks [5] (0 : Int)).isSome = true) :=
  ⟨(iter_chunks_zero_step_C10 0 ([] : List Nat)).1 (by decide),
   (iter_chunks_zero_step_C10 0 [5]).2 (by decide)⟩

theorem retryFrom_ok {E : Type _} {T : Type _} (f : Nat → Except E T)
    (m k : Nat) (v : T)
    (hfail : ∀ i, i < k → isError (f i) = true) (hok : f k = Except.ok v)
    (hkm : k ≤ m) :
    ∀ g a, a + g = k → AIBackendBase.retryFrom f m a = (k + 1, Except.ok v) := by
  intro g
  induction g with
  | zero =>
    intro a ha
    have hak : a = k := by omega
    subst hak
    rw [AIBackendBase.retryFrom, hok]
  | succ n ih =>
    intro a ha
    have hak : a < k := by omega
    have herr := hfail a hak
    rw [AIBackendBase.retryFrom]
    cases hfa : f a with
    | ok w => rw [hfa] at herr; simp [isError] at herr
    | error e =>
      simp only [hfa]
      rw [if_pos (by omega : a < m)]
      exact ih (a + 1) (by omega)

theorem retryFrom_error {E : Type _} {T : Type _} (f : Nat → Except E T)
    (m k : Nat) (e : E)
    (hfail : ∀ i, i < k → isError (f i) = true)
    (hm : m < k) (hme : f m = Except.error e) :
    ∀ g a, a + g = m → AIBackendBase.retryFrom f m a = (m + 1, Except.error e) := by
  intro g
  induction g with
  | zero =>
    intro a ha
    have ham : a = m := by omega
    subst ham
    rw [AIBackendBase.retryFrom]
    simp only [hme]
    rw [if_neg (by omega : ¬ a < a)]
  | succ n ih =>
    intro a ha
    have ham : a < m := by omega
    have herr := hfail a (by omega)
    rw [AIBackendBase.retryFrom]
    cases hfa : f a with
    | ok w => rw [hfa] at herr; simp [isError] at herr
    | error e2 =>
      simp only [hfa]
      rw [if_pos ham]
      exact ih (a + 1) (by omega)

/-- Claim C2: for a dispatch function that fails on its first k invocations
and succeeds on invocation k+1, `_retry` with max_retries ≥ k returns the
successful result after exactly k+1 invocations; with max_retries < k it
makes exactly max_retries+1 invocations and re-raises the very exception of
the last attempt. -/
theorem retry_attempts_C2 {E : Type _} {T : Type _} (f : Nat → Except E T)
    (k : Nat) (v : T)
    (hfail : ∀ i, i < k → isError (f i) = true)
    (hok : f k = Except.ok v) (max_retries : Nat) :
    (k ≤ max_retries →
      AIBackendBase._retry f max_retries = (k + 1, Except.ok v)) ∧
    (max_retries < k →
      ∃ e, f max_retries = Except.error e ∧
        AIBackendBase._retry f max_retries = (max_retries + 1, Except.error e)) := by
  constructor
  · intro hkm
    exact retryFrom_ok f max_retries k v hfail hok hkm k 0 (by omega)
  · intro hm
    have herr := hfail max_retries hm
    cases hfm : f max_retries with
    | ok w => rw [hfm] at herr; simp [isError] at herr
    | error e =>
      exact ⟨e, rfl,
        retryFrom_error f max_retries k e hfail hm hfm max_retries 0 (by omega)⟩

/-- Witness for C2: a function failing twice then succeeding, run with
max_retries = 3 (succeeds after 3 invocations) and with max_retries = 1
(re-raises the second attempt's exception after 2 invocations). -/
theorem retry_attempts_C2_witness :
    AIBackendBase._retry (fun i => if i < 2 then Except.error i else Except.ok 7) 3
      = (3, Except.ok 7) ∧
    ∃ e, (fun i => if i < 2 then Except.error i else Except.ok 7) 1
        = Except.error e ∧
      AIBackendBase._retry (fun i => if i < 2 then Except.error i else Except.ok 7) 1
        = (2, Except.error e) :=
  ⟨(retry_attempts_C2 (fun i => if i < 2 then Except.error i else Except.ok 7)
      2 7 (by decide) (by rfl) 3).1 (by omega),
   (retry_attempts_C2 (fun i => if i < 2 then Except.error i else Except.ok 7)
      2 7 (by decide) (by rfl) 1).2 (by omega)⟩

/-- Claim C4: a segment whose index has no matching entry in the parsed
response is left completely unchanged (all fields) by both response parsers. -/
theorem parse_unmatched_unchanged_C4 (parsed : List RespItem)
    (batch : List Segment) (i : Nat) (seg : Segment)
    (hget : batch[i]? = some seg)
    (hnone : by_index_get parsed seg.index = none) :
    (AITranslator._parse_response_text parsed batch)[i]? = some seg ∧
    (AIAPITranscriber._parse_response_text parsed batch)[i]? = some seg := by
  constructor
  · unfold AITranslator._parse_response_text
    rw [List.getElem?_map, hget]
    simp [hnone]
  · unfold AIAPITranscriber._parse_response_text
    rw [List.getElem?_map, hget]
    simp [hnone]

/-- Witness for C4, the spec scenario: response [{"index": 2, "text": "X"}]
against a 3-item batch leaves items 1 and 3 unchanged. -/
theorem parse_unmatched_unchanged_C4_witness :
    ((AITranslator._parse_response_text
        [RespItem.entry { index := 2, text := some "X" }]
        [{ index := 1, start := 0, «end» := 1, text := "a" },
         { index := 2, start := 1, «end» := 2, text := "b" },
         { index := 3, start := 2, «end» := 3, text := "c" }])[0]? =
      some { index := 1, start := 0, «end» := 1, text := "a" } ∧
     (AIAPITranscriber._parse_response_text
        [RespItem.entry { index := 2, text := some "X" }]
        [{ index := 1, start := 0, «end» := 1, text := "a" },
         { index := 2, start := 1, «end» := 2, text := "b" },
         { index := 3, start := 2, «end» := 3, text := "c" }])[0]? =
      some { index := 1, start := 0, «end» := 1, text := "a" }) ∧
    ((AITranslator._parse_response_text
        [RespItem.entry { index := 2, text := some "X" }]
        [{ index := 1, start := 0, «end» := 1, text := "a" },
         { index := 2, start := 1, «end» := 2, text := "b" },
         { index := 3, start := 2, «end» := 3, text := "c" }])[2]? =
      some { index := 3, start := 2, «end» := 3, text := "c" } ∧
     (AIAPITranscriber._parse_response_text
        [RespItem.entry { index := 2, text := some "X" }]
        [{ index := 1, start := 0, «end» := 1, text := "a" },
         { index := 2, start := 1, «end» := 2, text := "b" },
         { index := 3, start := 2, «end» := 3, text := "c" }])[2]? =
      some { index := 3, start := 2, «end» := 3, text := "c" }) :=
  ⟨parse_unmatched_unchanged_C4 _ _ 0 _ (by rfl) (by decide),
   parse_unmatched_unchanged_C4 _ _ 2 _ (by rfl) (by decide)⟩

theorem translator_parse_idem (parsed : List RespItem) (batch : List Segment) :
    AITranslator._parse_response_text parsed
        (AITranslator._parse_response_text parsed batch) =
      AITranslator._parse_response_text parsed batch := by
  unfold AITranslator._parse_response_text
  rw [List.map_map]
  apply List.map_congr_left
  intro seg _
  cases hidx : by_index_get parsed seg.index with
  | none => simp [Function.comp, hidx]
  | some e => simp [Function.comp, hidx, AITranslator.applyEntry]

theorem aligner_parse_idem (parsed : List RespItem) (batch : List Segment) :
    AIAligner._parse_response_text parsed
        (AIAligner._parse_response_text parsed batch) =
      AIAligner._parse_response_text parsed batch := by
  unfold AIAligner._parse_response_text
  rw [List.map_map]
  apply List.map_congr_left
  intro seg _
  cases hidx : by_index_get parsed seg.index with
  | none => simp [Function.comp, hidx]
  | some e =>
    obtain ⟨ei, es, ee, et⟩ := e
    cases es <;> cases ee <;> cases et <;>
      simp [Function.comp, hidx, AIAligner.applyEntry]

/-- Claim C9: when the parsed response has a matching entry for every input
index, applying the response parser twice yields the same segment state as
applying it once, for the translator and the aligner parser alike. -/
theorem parse_idempotent_C9 (parsed : List RespItem) (batch : List Segment)
    (_hmatch : ∀ seg ∈ batch, (by_index_get parsed seg.index).isSome = true) :
    AITranslator._parse_response_text parsed
        (AITranslator._parse_response_text parsed batch) =
      AITranslator._parse_response_text parsed batch ∧
    AIAligner._parse_response_text parsed
        (AIAligner._parse_response_text parsed batch) =
      AIAligner._parse_response_text parsed batch :=
  ⟨translator_parse_idem parsed batch, aligner_parse_idem parsed batch⟩

/-- Witness for C9: a fully-matched one-segment batch. -/
theorem parse_idempotent_C9_witness :
    AITranslator._parse_response_text
        [RespItem.entry { index := 1, start := some 2, «end» := some 3, text := some " X " }]
        (AITranslator._parse_response_text
          [RespItem.entry { index := 1, start := some 2, «end» := some 3, text := some " X " }]
          [{ index := 1, start := 0, «end» := 1, text := "hello" }]) =
      AITranslator._parse_response_text
        [RespItem.entry { index := 1, start := some 2, «end» := some 3, text := some " X " }]
        [{ index := 1, start := 0, «end» := 1, text := "hello" }] ∧
    AIAligner._parse_response_text
        [RespItem.entry { index := 1, start := some 2, «end» := some 3, text := some " X " }]
        (AIAligner._parse_response_text
          [RespItem.entry { index := 1, start := some 2, «end» := some 3, text := some " X " }]
          [{ index := 1, start := 0, «end» := 1, text := "hello" }]) =
      AIAligner._parse_response_text
        [RespItem.entry { index := 1, start := some 2, «end» := some 3, text := some " X " }]
        [{ index := 1, start := 0, «end» := 1, text := "hello" }] :=
  parse_idempotent_C9 _ _ (by decide)

theorem iter_alignment_fst_flatten (segments reference : List Segment)
    (chunk_size : Int) :
    ((AIAligner._iter_alignment_chunks segments reference chunk_size).map
      Prod.fst).flatten = segments := by
  unfold AIAligner._iter_alignment_chunks
  by_cases hcond : chunk_size ≤ 0 ∨ chunk_size ≥ (segments.length : Int)
  · rw [if_pos hcond]
    simp
  · rw [if_neg hcond]
    push_neg at hcond
    rw [List.map_map]
    have hfst : (Prod.fst ∘ fun b : List Segment => (b, reference)) = id := rfl
    rw [hfst, List.map_id]
    exact chunkList_flatten chunk_size.toNat (by omega) segments

theorem alignBatches_forall₂ (responses : Nat → List RespItem) :
    ∀ (pairs : List (List Segment × List Segment)) (r : Nat),
      List.Forall₂ (fun o s => o.text = s.text ∨
          ∃ q e, by_index_get (responses q) s.index = some e ∧
            e.text = some o.text)
        (AIAligner.alignBatches responses pairs r)
        ((pairs.map Prod.fst).flatten) := by
  intro pairs
  induction pairs with
  | nil => intro r; simp [AIAligner.alignBatches]
  | cons p rest ih =>
    intro r
    obtain ⟨b, ref⟩ := p
    simp only [AIAligner.alignBatches, List.map_cons, List.flatten_cons]
    apply List.rel_append ?_ (ih (r + 1))
    unfold AIAligner._parse_response_text
    rw [List.forall₂_map_left_iff]
    apply List.forall₂_same.mpr
    intro seg _
    cases hidx : by_index_get (responses r) seg.index with
    | none => simp [hidx]
    | some e =>
      cases het : e.text with
      | none =>
        simp only [hidx]
        exact Or.inl (by simp [AIAligner.applyEntry, het])
      | some t =>
        simp only [hidx]
        exact Or.inr ⟨r, e, hidx, by simp [AIAligner.applyEntry, het]⟩

/-- Counterexample to claim C5 as stated: a provider response whose matching
entry carries a `text` field makes align overwrite the segment's text, so the
returned text ("new") differs from the text before the call ("old"). -/
theorem align_text_overwrite_C5_counterexample :
    AIAligner.align [{ index := 1, start := 0, «end» := 1, text := "old" }] []
        none
        (fun _ => [RespItem.entry
          { index := 1, start := some 5, «end» := some 6, text := some "new" }])
      = [{ index := 1, start := 5, «end» := 6, text := "new" }] ∧
    "new" ≠ "old" := by
  refine ⟨?_, by decide⟩
  simp [AIAligner.align, effective_chunk_size, AIAligner._iter_alignment_chunks,
    AIAligner.alignBatches, AIAligner._parse_response_text,
    AIAligner.applyEntry, by_index_get, validEntries]

/-- Claim C5 (amended): align retimes segments from the response but each
returned segment's text equals its text before the call unless the response
entry matching its index carries a `text` field, in which case the returned
text is that entry's text. -/
theorem align_text_C5_amended (segments reference : List Segment)
    (chunk : Option Int) (responses : Nat → List RespItem) :
    List.Forall₂ (fun o s => o.text = s.text ∨
        ∃ q e, by_index_get (responses q) s.index = some e ∧
          e.text = some o.text)
      (AIAligner.align segments reference chunk responses) segments := by
  unfold AIAligner.align
  have h := alignBatches_forall₂ responses
    (AIAligner._iter_alignment_chunks segments reference
      (effective_chunk_size chunk 2000)) 0
  rwa [iter_alignment_fst_flatten] at h

theorem translateBatches_map_index (responses : Nat → List RespItem) :
    ∀ (batches : List (List Segment)) (r : Nat),
      (AITranslator.translateBatches responses batches r).map (·.index) =
        batches.flatten.map (·.index) := by
  intro batches
  induction batches with
  | nil => intro r; rfl
  | cons b rest ih =>
    intro r
    simp only [AITranslator.translateBatches, List.flatten_cons,
      List.map_append, ih (r + 1)]
    congr 1
    unfold AITranslator._parse_response_text
    rw [List.map_map]
    apply List.map_congr_left
    intro seg _
    cases hidx : by_index_get (responses r) seg.index <;>
      simp [Function.comp, hidx, AITranslator.applyEntry]

theorem effective_chunk_size_pos (chunk : Option Int) :
    0 < effective_chunk_size chunk 2000 := by
  cases chunk with
  | none => norm_num [effective_chunk_size]
  | some c =>
    simp only [effective_chunk_size]
    split
    · omega
    · norm_num

/-- Claim C7: translate returns exactly as many segments as it was given and
each returned segment's index equals the corresponding input segment's index,
regardless of chunk size and of which indices the provider response holds. -/
theorem translate_preserves_count_index_C7 (segments : List Segment)
    (chunk : Option Int) (responses : Nat → List RespItem) :
    (AITranslator.translate segments chunk responses).length =
      segments.length ∧
    (AITranslator.translate segments chunk responses).map (·.index) =
      segments.map (·.index) := by
  have hcs := effective_chunk_size_pos chunk
  unfold AITranslator.translate
  rw [iter_chunks_pos segments _ hcs]
  have hmap := translateBatches_map_index responses
    (AIBackendBase.chunkList (effective_chunk_size chunk 2000).toNat segments) 0
  rw [chunkList_flatten _ (by omega) segments] at hmap
  refine ⟨?_, hmap⟩
  have hlen := congrArg List.length hmap
  simpa using hlen

theorem indexFrom_length : ∀ (l : List Segment) (i : Int),
    (indexFrom i l).length = l.length := by
  intro l
  induction l with
  | nil => intro i; rfl
  | cons s rest ih => intro i; simp [indexFrom, ih (i + 1)]

theorem indexFrom_map_start : ∀ (l : List Segment) (i : Int),
    (indexFrom i l).map (·.start) = l.map (·.start) := by
  intro l
  induction l with
  | nil => intro i; rfl
  | cons s rest ih => intro i; simp [indexFrom, ih (i + 1)]

theorem indexFrom_map_index : ∀ (l : List Segment) (i : Int),
    (indexFrom i l).map (·.index) =
      (List.range l.length).map (fun n : Nat => i + (n : Int)) := by
  intro l
  induction l with
  | nil => intro i; rfl
  | cons s rest ih =>
    intro i
    rw [indexFrom, List.map_cons, ih (i + 1), List.length_cons,
      List.range_succ_eq_map, List.map_cons, List.map_map]
    congr 1
    · norm_num
    · apply List.map_congr_left
      intro n _
      show i + 1 + (n : Int) = i + ((n.succ : Nat) : Int)
      push_cast
      ring

theorem map_update_text_index (l : List Segment) (tr : Segment → String) :
    (l.map fun seg => { seg with text := tr seg }).map (·.index) =
      l.map (·.index) := by
  rw [List.map_map]
  rfl

theorem map_update_text_start (l : List Segment) (tr : Segment → String) :
    (l.map fun seg => { seg with text := tr seg }).map (·.start) =
      l.map (·.start) := by
  rw [List.map_map]
  rfl

/-- Claim C6: if the detector returns an empty segment list, the pipeline
fails with the no-speech error and the transcriber is invoked zero times. -/
theorem transcribe_empty_detector_C6 (tr : Segment → String) :
    transcribeModel [] tr = (Except.error PipelineError.noSpeechDetected, 0) :=
  rfl

/-- Counterexample to claim C1 as stated: a transcriber returning blank text
for the first of two detected segments makes the pipeline drop it, so the
returned list carries index [2] — not exactly 1..N for N = 1 returned
segment (nor for N = 2 detected segments). -/
theorem transcribe_index_gap_C1_counterexample :
    (transcribeModel
        [{ index := 1, start := 0, «end» := 1 },
         { index := 2, start := 3, «end» := 4 }]
        (fun s => if s.index = 1 then "" else "hi")).1
      = Except.ok
          [{ index := 2, start := 3, «end» := 4,
             text := "hi", audio := some "segment_2.wav" }] ∧
    [(2 : Int)] ≠ [1] ∧ [(2 : Int)] ≠ [1, 2] := by
  refine ⟨?_, by decide, by decide⟩
  rfl

/-- Claim C1 (amended): for every non-empty detector output sorted by
strictly increasing start time (the detector contract) whose transcriptions
are all non-blank (so none is dropped), the pipeline returns segments whose
index values are exactly 1..N in order, with strictly increasing starts. -/
theorem transcribe_indices_sorted_C1_amended (detected : List Segment)
    (tr : Segment → String) (hne : detected ≠ [])
    (hsorted : List.Chain' (fun a b => a.start < b.start) detected)
    (htr : ∀ s, pyStrip (tr s) ≠ "") :
    ∃ out, transcribeModel detected tr = (Except.ok out, detected.length) ∧
      out.map (·.index) =
        (List.range detected.length).map (fun n : Nat => (n : Int) + 1) ∧
      List.Chain' (fun a b => a.start < b.start) out := by
  cases detected with
  | nil => exact absurd rfl hne
  | cons d ds =>
    have hfilter :
        (((indexFrom 1 (d :: ds)).map fun seg => { seg with text := tr seg }).filter
            fun seg => pyStrip seg.text != "") =
          ((indexFrom 1 (d :: ds)).map fun seg => { seg with text := tr seg }) := by
      apply List.filter_eq_self.mpr
      intro a ha
      obtain ⟨s, _, rfl⟩ := List.mem_map.mp ha
      simpa using htr s
    have hlen : (indexFrom 1 (d :: ds)).length = (d :: ds).length :=
      indexFrom_length (d :: ds) 1
    have hmaplen :
        ((indexFrom 1 (d :: ds)).map fun seg => { seg with text := tr seg }).length
          = (d :: ds).length := by
      rw [List.length_map, hlen]
    have hemp :
        ¬ ((((indexFrom 1 (d :: ds)).map
            fun seg => { seg with text := tr seg }).isEmpty) = true) := by
      intro h
      rw [List.isEmpty_iff] at h
      rw [h] at hmaplen
      simp at hmaplen
    refine ⟨(indexFrom 1 (d :: ds)).map fun seg => { seg with text := tr seg },
      ?_, ?_, ?_⟩
    · simp only [transcribeModel, hfilter]
      rw [if_neg hemp, hlen]
    · rw [map_update_text_index, indexFrom_map_index]
      apply List.map_congr_left
      intro n _
      ring
    · have hstart := map_update_text_start (indexFrom 1 (d :: ds)) tr
      rw [indexFrom_map_start] at hstart
      rw [← List.chain'_map (fun seg : Segment => seg.start), hstart,
        List.chain'_map]
      exact hsorted

/-- Witness for the amended C1: two sorted detected segments, every
transcription non-blank. -/
theorem transcribe_indices_sorted_C1_witness :
    ∃ out, transcribeModel
        [{ index := 1, start := 0, «end» := 1 },
         { index := 2, start := 3, «end» := 4 }] (fun _ => "hi")
        = (Except.ok out, 2) ∧
      out.map (·.index) = (List.range 2).map (fun n : Nat => (n : Int) + 1) ∧
      List.Chain' (fun a b => a.start < b.start) out :=
  transcribe_indices_sorted_C1_amended
    [{ index := 1, start := 0, «end» := 1 },
     { index := 2, start := 3, «end» := 4 }]
    (fun _ => "hi") (by decide)
    (by
      simp only [List.chain'_cons, List.chain'_singleton, and_true]
      norm_num)
    (by
      intro s
      show pyStrip "hi" ≠ ""
      decide)

end Audio2Sub
